import Mathlib

/-!
Verification of the data access and caching layer of the bookmark-navigation
site: the Data Manager (src/unnamed/part_008), the Migration Tool
(src/unnamed/part_009), the Cloudflare KV adapter (src/unnamed/part_010), the
error handler (src/unnamed/part_007) and the cache manager
(src/src/utils/cache-manager.js) are shallowly embedded as pure Lean
functions.  JavaScript timestamps (`Date.now()`) become explicit `Nat`
parameters, the mutable collections become explicit state records, `throw`
becomes `Except`/explicit error results, and the remote KV store becomes a
record of `Option` fields.
-/

namespace Hao123

/-! ## String helpers

JavaScript `String.prototype.includes` and `String.prototype.toLowerCase`,
modelled over the character list of a Lean `String`.  (`jsLower` maps
`Char.toLower` over the characters; this matches `toLowerCase` on the ASCII
data the claims exercise.) -/

/-- Substring test on character lists: `substrB needle hay` is true iff
`needle` occurs contiguously in `hay`. -/
def substrB (needle : List Char) : List Char → Bool
  | [] => needle.isEmpty
  | c :: rest => if needle.isPrefixOf (c :: rest) then true else substrB needle rest

/-- JavaScript `hay.includes(needle)`. -/
def strIncludes (hay needle : String) : Bool := substrB needle.data hay.data

/-- JavaScript `s.toLowerCase()`. -/
def jsLower (s : String) : String := ⟨s.data.map Char.toLower⟩

/-! ## Error model (src/unnamed/part_007, error-handler.js)

`ErrorType` lists the constants of the `ErrorType` enum.  `parseErrorType`
embeds `ErrorHandler.parseError`'s keyword classification of a plain
`Error`'s message (the `AbortError`-name check is subsumed by the message
checks for the errors arising in this development).  `handleError.validation`
builds an `AppError` with type `validation` directly;
`handleError.generic` on a plain `Error` classifies the message. -/

inductive ErrorType where
  | network
  | timeout
  | validation
  | permission
  | notFound
  | server
  | unknown
deriving DecidableEq, Repr

structure AppError where
  etype : ErrorType
  msg : String
deriving DecidableEq, Repr

/-- `ErrorHandler.parseError`'s message-keyword classification chain. -/
def parseErrorType (m : String) : ErrorType :=
  if strIncludes m "超时" then .timeout
  else if strIncludes m "网络" || strIncludes m "fetch" then .network
  else if strIncludes m "权限" || strIncludes m "unauthorized" then .permission
  else if strIncludes m "验证" || strIncludes m "validation" then .validation
  else if strIncludes m "404" || strIncludes m "not found" then .notFound
  else if strIncludes m "500" || strIncludes m "server" then .server
  else .unknown

/-- `handleError.generic(new Error(m))`: the message is kept, the type is
parsed from the message. -/
def genericError (m : String) : AppError := ⟨parseErrorType m, m⟩

/-- `handleError.validation(m)`: an `AppError` of type VALIDATION. -/
def validationError (m : String) : AppError := ⟨.validation, m⟩

/-! ## Data model (§3 of the spec; record shapes of navLinks.js / the API)

`lastModified` is optional on both record kinds: the update HTTP handlers
spread a `lastModified` stamp into arbitrary records, and JavaScript objects
are open, so the field is carried as an `Option`. -/

structure Category where
  id : String := ""
  name : String := ""
  icon : String := ""
  description : String := ""
  addDate : Nat := 0
  lastModified : Option Nat := none
deriving DecidableEq, Repr

structure Site where
  id : String := ""
  title : String := ""
  url : String := ""
  description : String := ""
  shortDesc : String := ""
  icon : String := ""
  category : String := ""
  addDate : Nat := 0
  lastModified : Option Nat := none
deriving DecidableEq, Repr

/-- The two collections held by the Data Manager (whatever the backing
store currently contains, reads and writes go through whole collections). -/
structure DMData where
  categories : List Category := []
  sites : List Site := []
deriving DecidableEq, Repr

/-! ## §3 invariants -/

/-- Every Bookmark.category names an existing Category (referential
integrity). -/
def fkOk (s : DMData) : Prop :=
  ∀ st ∈ s.sites, ∃ c ∈ s.categories, c.id = st.category

/-- The §3 invariants: unique `Category.id`, unique `Site.id`, unique
`Site.url`, and referential integrity. -/
def Invariants (s : DMData) : Prop :=
  (s.categories.map Category.id).Nodup ∧
  (s.sites.map Site.id).Nodup ∧
  (s.sites.map Site.url).Nodup ∧
  fkOk s

instance : DecidablePred fkOk := fun s =>
  inferInstanceAs (Decidable (∀ st ∈ s.sites, ∃ c ∈ s.categories, c.id = st.category))

instance : DecidablePred Invariants := fun _ =>
  inferInstanceAs (Decidable (_ ∧ _ ∧ _ ∧ _))

/-! ## Data Manager error messages (src/unnamed/part_008) -/

def catExistsMsg (cid : String) : String := "分类 ID \"" ++ cid ++ "\" 已存在"
def catMissingMsg (cid : String) : String := "分类 \"" ++ cid ++ "\" 不存在"
def delCatBlockedMsg (cid : String) (n : Nat) : String :=
  "无法删除分类 \"" ++ cid ++ "\"，还有 " ++ toString n ++ " 个网站使用此分类"
def siteIdExistsMsg (sid : String) : String := "网站 ID \"" ++ sid ++ "\" 已存在"
def siteUrlExistsMsg (u : String) : String := "网站 URL \"" ++ u ++ "\" 已存在"
def siteMissingMsg (sid : String) : String := "网站 \"" ++ sid ++ "\" 不存在"

/-! ## Data Manager write operations, KV mode with a reliable store
(src/unnamed/part_008, lines 270-385)

In KV mode with the store accepting writes, `saveCategories`/`saveSites`
succeed, so each operation's result is determined by its validation checks.
All validation `throw`s happen before the collection is touched, so a
`Validation` failure leaves the observable data state unchanged — which the
`Except` embedding makes explicit by returning no new state on `.error`. -/

/-- `DataManager.addCategory`: reject a duplicate id, else append. -/
def addCategory (c : Category) (s : DMData) : Except AppError DMData :=
  if s.categories.any (fun cat => cat.id == c.id) then
    .error (validationError (catExistsMsg c.id))
  else
    .ok { s with categories := s.categories ++ [c] }

/-- `DataManager.addSite`: reject a duplicate id, then a duplicate url,
else append.  (No check that `st.category` names an existing category.) -/
def addSite (st : Site) (s : DMData) : Except AppError DMData :=
  if s.sites.any (fun t => t.id == st.id) then
    .error (validationError (siteIdExistsMsg st.id))
  else if s.sites.any (fun t => t.url == st.url) then
    .error (validationError (siteUrlExistsMsg st.url))
  else
    .ok { s with sites := s.sites ++ [st] }

/-- `DataManager.deleteCategory`: reject while any site references the
category (the message names the count), else remove it. -/
def deleteCategory (cid : String) (s : DMData) : Except AppError DMData :=
  let sitesInCategory := s.sites.filter (fun st => st.category == cid)
  if 0 < sitesInCategory.length then
    .error (validationError (delCatBlockedMsg cid sitesInCategory.length))
  else
    .ok { s with categories := s.categories.filter (fun c => !(c.id == cid)) }

/-- `DataManager.deleteSite`: remove the site; reject when nothing was
removed. -/
def deleteSite (sid : String) (s : DMData) : Except AppError DMData :=
  let filteredSites := s.sites.filter (fun st => !(st.id == sid))
  if filteredSites.length == s.sites.length then
    .error (validationError (siteMissingMsg sid))
  else
    .ok { s with sites := filteredSites }

/-! ## Partial updates (src/unnamed/part_008, lines 290-302 and 355-367)

`updateCategory(id, updates)` / `updateSite(id, updates)` find the first
record with the id and replace it by `{...record, ...updates}`: a field is
overridden exactly when the partial carries it.  The record id itself is not
part of the partial (the HTTP handlers keep it in the URL). -/

structure CategoryUpdate where
  name : Option String := none
  icon : Option String := none
  description : Option String := none
  addDate : Option Nat := none
  lastModified : Option Nat := none
deriving DecidableEq, Repr

structure SiteUpdate where
  title : Option String := none
  url : Option String := none
  description : Option String := none
  shortDesc : Option String := none
  icon : Option String := none
  category : Option String := none
  addDate : Option Nat := none
  lastModified : Option Nat := none
deriving DecidableEq, Repr

/-- JavaScript `{...c, ...u}` for a category partial. -/
def mergeCategory (c : Category) (u : CategoryUpdate) : Category :=
  { id := c.id
    name := u.name.getD c.name
    icon := u.icon.getD c.icon
    description := u.description.getD c.description
    addDate := u.addDate.getD c.addDate
    lastModified := match u.lastModified with
      | some v => some v
      | none => c.lastModified }

/-- JavaScript `{...t, ...u}` for a site partial. -/
def mergeSite (t : Site) (u : SiteUpdate) : Site :=
  { id := t.id
    title := u.title.getD t.title
    url := u.url.getD t.url
    description := u.description.getD t.description
    shortDesc := u.shortDesc.getD t.shortDesc
    icon := u.icon.getD t.icon
    category := u.category.getD t.category
    addDate := u.addDate.getD t.addDate
    lastModified := match u.lastModified with
      | some v => some v
      | none => t.lastModified }

/-- `findIndex` followed by in-place replacement of the found element:
`none` when no element satisfies `p`. -/
def updateFirst (p : α → Bool) (f : α → α) : List α → Option (List α)
  | [] => none
  | x :: xs =>
      if p x then some (f x :: xs)
      else (updateFirst p f xs).map (fun ys => x :: ys)

/-- `DataManager.updateCategory` (KV mode, reliable store). -/
def updateCategory (cid : String) (u : CategoryUpdate) (s : DMData) :
    Except AppError DMData :=
  match updateFirst (fun c => c.id == cid) (fun c => mergeCategory c u) s.categories with
  | none => .error (validationError (catMissingMsg cid))
  | some cats => .ok { s with categories := cats }

/-- `DataManager.updateSite` (KV mode, reliable store). -/
def updateSite (sid : String) (u : SiteUpdate) (s : DMData) :
    Except AppError DMData :=
  match updateFirst (fun t => t.id == sid) (fun t => mergeSite t u) s.sites with
  | none => .error (validationError (siteMissingMsg sid))
  | some sts => .ok { s with sites := sts }

/-! ## STATIC mode (src/unnamed/part_008)

When the store is unavailable the Data Manager serves the bundled dataset.
`getCategories`/`getSites` return the module-level `staticCategories` /
`staticSites` arrays (also stored, by reference, in the cache).  Every
`saveCategories`/`saveSites` throws `new Error('静态数据模式不支持保存操作')`,
re-thrown through `handleError.generic` — so every write call fails.  But
`addCategory`/`addSite` have already executed `push` and `updateCategory`/
`updateSite` have already assigned `arr[index]` on those shared arrays
before the save throws, so the in-memory dataset the next read returns has
been mutated.  `deleteCategory`/`deleteSite` build fresh arrays with
`filter`, which are discarded when the save throws.

`StaticState` is the current content of those shared in-memory arrays
(initially the bundled dataset); `staticStep` returns the error every write
raises together with the array content after the call. -/

def readOnlyMsg : String := "静态数据模式不支持保存操作"

/-- The error a static-mode save raises: `handleError.generic` keeps the
message and classifies it (no keyword matches, so type UNKNOWN). -/
def readOnlyErr : AppError := genericError readOnlyMsg

structure StaticState where
  categories : List Category := []
  sites : List Site := []
deriving DecidableEq, Repr

/-- The six write operations of the Data Manager contract. -/
inductive AdminOp where
  | addCat (c : Category)
  | updCat (cid : String) (u : CategoryUpdate)
  | delCat (cid : String)
  | addSit (st : Site)
  | updSit (sid : String) (u : SiteUpdate)
  | delSit (sid : String)

/-- One write call in STATIC mode: the error thrown, and the in-memory
dataset contents after the call. -/
def staticStep : AdminOp → StaticState → AppError × StaticState
  | .addCat c, s =>
      if s.categories.any (fun cat => cat.id == c.id) then
        (validationError (catExistsMsg c.id), s)
      else
        (readOnlyErr, { s with categories := s.categories ++ [c] })
  | .updCat cid u, s =>
      match updateFirst (fun c => c.id == cid) (fun c => mergeCategory c u) s.categories with
      | none => (validationError (catMissingMsg cid), s)
      | some cats => (readOnlyErr, { s with categories := cats })
  | .delCat cid, s =>
      let sitesInCategory := s.sites.filter (fun st => st.category == cid)
      if 0 < sitesInCategory.length then
        (validationError (delCatBlockedMsg cid sitesInCategory.length), s)
      else
        (readOnlyErr, s)
  | .addSit st, s =>
      if s.sites.any (fun t => t.id == st.id) then
        (validationError (siteIdExistsMsg st.id), s)
      else if s.sites.any (fun t => t.url == st.url) then
        (validationError (siteUrlExistsMsg st.url), s)
      else
        (readOnlyErr, { s with sites := s.sites ++ [st] })
  | .updSit sid u, s =>
      match updateFirst (fun t => t.id == sid) (fun t => mergeSite t u) s.sites with
      | none => (validationError (siteMissingMsg sid), s)
      | some sts => (readOnlyErr, { s with sites := sts })
  | .delSit sid, s =>
      let filteredSites := s.sites.filter (fun st => !(st.id == sid))
      if filteredSites.length == s.sites.length then
        (validationError (siteMissingMsg sid), s)
      else
        (readOnlyErr, s)

/-- `getCategories` in STATIC mode returns the current in-memory array. -/
def staticGetCategories (s : StaticState) : List Category := s.categories

/-- `getSites` in STATIC mode returns the current in-memory array. -/
def staticGetSites (s : StaticState) : List Site := s.sites

/-- The four write operations of claim C1. -/
inductive MutOp where
  | addCat (c : Category)
  | addSit (st : Site)
  | delCat (cid : String)
  | delSit (sid : String)

/-- One call of a C1 operation against the current data state. -/
def stepOp : MutOp → DMData → Except AppError DMData
  | .addCat c, s => addCategory c s
  | .addSit st, s => addSite st s
  | .delCat cid, s => deleteCategory cid s
  | .delSit sid, s => deleteSite sid s

/-! ## KV adapter version record and init gate (src/unnamed/part_010)

`DATA_VERSION.CURRENT = '1.0.0'`, `DATA_VERSION.COMPATIBLE = ['1.0.0']`.
`getVersion` reads `data:version` and defaults to the current version when
the record is absent; `checkVersionCompatibility` accepts exactly when the
resulting version is in the compatible list.  The remote read is modelled as
an `Option VersionInfo` (the catch branches of `getVersion` /
`checkVersionCompatibility` only matter for a throwing store handle, which
this model folds into the same default). -/

def DATA_VERSION_CURRENT : String := "1.0.0"
def DATA_VERSION_COMPATIBLE : List String := ["1.0.0"]

structure VersionInfo where
  version : String := DATA_VERSION_CURRENT
  timestamp : Nat := 0
  compatible : List String := DATA_VERSION_COMPATIBLE
deriving DecidableEq, Repr

/-- `KVAdapter.getVersion`: the stored record, defaulting to the current
version. -/
def getVersion (stored : Option VersionInfo) (now : Nat) : VersionInfo :=
  stored.getD { version := DATA_VERSION_CURRENT, timestamp := now }

/-- `KVAdapter.checkVersionCompatibility`. -/
def checkVersionCompatibility (stored : Option VersionInfo) (now : Nat) : Bool :=
  DATA_VERSION_COMPATIBLE.contains (getVersion stored now).version

/-- The data-source enum of the Data Manager. -/
inductive DataSource where
  | static
  | kv
  | hybrid
deriving DecidableEq, Repr

/-- `DataManager.init`: KV mode exactly when the store is available and the
version check passes, STATIC otherwise. -/
def dmInitSource (kvAvailable : Bool) (stored : Option VersionInfo) (now : Nat) :
    DataSource :=
  if kvAvailable then
    if checkVersionCompatibility stored now then .kv else .static
  else .static

/-! ## The shared cache (src/src/utils/cache-manager.js)

`MemoryCache` holds a `Map` of entries and a parallel `Map` of access
times.  A JavaScript `Map` keeps insertion order and `set` overwrites in
place, which the association lists and `mapSet` reproduce. -/

structure CacheEntry (α : Type) where
  data : α
  timestamp : Nat
  ttl : Nat
deriving DecidableEq, Repr

/-- `Map.prototype.set`: overwrite in place, else append. -/
def mapSet (k : String) (v : β) : List (String × β) → List (String × β)
  | [] => [(k, v)]
  | (k', v') :: rest =>
      if k' == k then (k, v) :: rest else (k', v') :: mapSet k v rest

/-- `Map.prototype.get` (first binding; the only one, keys being unique). -/
def mapGet (k : String) : List (String × β) → Option β
  | [] => none
  | (k', v') :: rest => if k' == k then some v' else mapGet k rest

/-- `Map.prototype.delete`. -/
def mapDelete (k : String) (m : List (String × β)) : List (String × β) :=
  m.filter (fun p => !(p.1 == k))

structure MemoryCache (α : Type) where
  cache : List (String × CacheEntry α) := []
  accessTimes : List (String × Nat) := []
deriving DecidableEq, Repr

/-- `MemoryCache.set`. -/
def mcSet (k : String) (v : α) (ttl now : Nat) (c : MemoryCache α) : MemoryCache α :=
  { cache := mapSet k { data := v, timestamp := now, ttl := ttl } c.cache
    accessTimes := mapSet k now c.accessTimes }

/-- `MemoryCache.delete`. -/
def mcDelete (k : String) (c : MemoryCache α) : MemoryCache α :=
  { cache := mapDelete k c.cache, accessTimes := mapDelete k c.accessTimes }

/-- `MemoryCache.clear`. -/
def mcClear (_c : MemoryCache α) : MemoryCache α := { cache := [], accessTimes := [] }

/-- `MemoryCache.size`. -/
def mcSize (c : MemoryCache α) : Nat := c.cache.length

/-- `MemoryCache.get`: lazily expire when `now - createdAt > ttl`, else
refresh the access time and return the data. -/
def mcGet (k : String) (now : Nat) (c : MemoryCache α) : Option α × MemoryCache α :=
  match mapGet k c.cache with
  | none => (none, c)
  | some e =>
      if e.ttl < now - e.timestamp then
        (none, mcDelete k c)
      else
        (some e.data, { c with accessTimes := mapSet k now c.accessTimes })

/-- The access-time comparator `(a, b) => a[1] - b[1]` (ascending). -/
def byAccessTime (a b : String × Nat) : Bool := a.2 ≤ b.2

/-- `MemoryCache.evictLRU`: sort the access-time map ascending and delete
the oldest `size - maxSize` keys. -/
def evictLRU (maxSize : Nat) (c : MemoryCache α) : MemoryCache α :=
  if c.cache.length ≤ maxSize then c
  else
    let sortedByAccess := c.accessTimes.mergeSort byAccessTime
    let toRemove := sortedByAccess.take (c.cache.length - maxSize)
    toRemove.foldl (fun acc p => mcDelete p.1 acc) c

/-- `CacheManager.set` with the MEMORY strategy: set, then evict when the
size bound is exceeded. -/
def cmSet (maxSize : Nat) (k : String) (v : α) (ttl now : Nat)
    (c : MemoryCache α) : MemoryCache α :=
  let c' := mcSet k v ttl now c
  if maxSize < mcSize c' then evictLRU maxSize c' else c'

/-! ## Cache key prefixing and `clearCache` (src/unnamed/part_008 and 010)

The Data Manager prefixes its entries with `dm_`, the KV adapter with
`kv_`; both share the module-level `cache` (the default `CacheManager`).
`KVAdapter.clearCache(key)` deletes the adapter's own entry;
`KVAdapter.clearCache()` calls `cache.clear()`. -/

def dmCacheKey (k : String) : String := "dm_" ++ k
def kvCacheKey (k : String) : String := "kv_" ++ k

/-- `KVAdapter.clearCache` over the shared memory cache. -/
def kvClearCache (key : Option String) (c : MemoryCache α) : MemoryCache α :=
  match key with
  | some k => mcDelete (kvCacheKey k) c
  | none => mcClear c

/-- `DataManager.clearCache` over the shared memory cache. -/
def dmClearCache (key : Option String) (c : MemoryCache α) : MemoryCache α :=
  match key with
  | some k => mcDelete (dmCacheKey k) c
  | none => mcDelete (dmCacheKey "categories") (mcDelete (dmCacheKey "sites") c)

/-! ## Remote store state and the Migration Tool (src/unnamed/part_009)

The remote store's relevant keys are modelled as `Option` fields (absent
until written).  `migrateToKV`'s interaction with a possibly failing store
is modelled by `failKeys`: the set of keys whose `kvAdapter.set` throws.
`kvSetFailMsg` stands for the message of whatever error the store handle
raised (its exact text is environment-determined); the metadata record's
content is abbreviated to the counts and timestamp it carries. -/

def KV_CATEGORIES : String := "bookmarks:categories"
def KV_SITES : String := "bookmarks:sites"
def KV_METADATA : String := "bookmarks:metadata"
def KV_VERSION : String := "data:version"

structure MigMeta where
  categoriesCount : Nat
  sitesCount : Nat
  timestamp : Nat
deriving DecidableEq, Repr

structure KVStore where
  categories : Option (List Category) := none
  sites : Option (List Site) := none
  metadata : Option MigMeta := none
  version : Option VersionInfo := none
deriving DecidableEq, Repr

inductive MigrationStatus where
  | notStarted
  | inProgress
  | completed
  | failed
deriving DecidableEq, Repr

structure MigResult where
  status : MigrationStatus
  progress : Nat
  errors : List String
deriving DecidableEq, Repr

def catIncompleteMsg (c : Category) : String := "分类数据不完整: " ++ c.id
def siteIncompleteMsg (t : Site) : String := "网站数据不完整: " ++ t.id
def danglingRefMsg (t : Site) : String :=
  "网站 \"" ++ t.title ++ "\" 引用了不存在的分类: " ++ t.category
def dupCatIdMsg : String := "分类 ID 存在重复"
def dupSiteIdMsg : String := "网站 ID 存在重复"
def kvSetFailMsg (key : String) : String := "KV 写入失败: " ++ key

/-- The category loop of `MigrationTool.validateData`: first incomplete
category (JavaScript truthiness: a missing field reads as empty). -/
def firstCatError : List Category → Option String
  | [] => none
  | c :: rest =>
      if c.id == "" || c.name == "" then some (catIncompleteMsg c)
      else firstCatError rest

/-- The site loop of `MigrationTool.validateData`: per site, the field check
then the dangling-category check. -/
def firstSiteError (cats : List Category) : List Site → Option String
  | [] => none
  | t :: rest =>
      if t.id == "" || t.title == "" || t.url == "" || t.category == "" then
        some (siteIncompleteMsg t)
      else if !(cats.any (fun c => c.id == t.category)) then
        some (danglingRefMsg t)
      else firstSiteError cats rest

/-- `MigrationTool.validateData`: `none` when valid, `some msg` with the
first failure message otherwise (the source throws at the first violation
and pushes that one message into `errors`). -/
def validateData (cats : List Category) (sites : List Site) : Option String :=
  match firstCatError cats with
  | some m => some m
  | none =>
    match firstSiteError cats sites with
    | some m => some m
    | none =>
      if !((cats.map Category.id).dedup.length == (cats.map Category.id).length) then
        some dupCatIdMsg
      else if !((sites.map Site.id).dedup.length == (sites.map Site.id).length) then
        some dupSiteIdMsg
      else none

/-- `MigrationTool.migrateToKV`: prerequisites, validation, then the
sequence of writes (categories, sites, metadata, version record), each of
which may throw; a throw is caught, marks the run FAILED and pushes the
error message, leaving every earlier write in place. -/
def migrateToKV (kvAvailable : Bool) (staticCats : List Category)
    (staticSites : List Site) (failKeys : List String) (now : Nat)
    (store : KVStore) : MigResult × KVStore :=
  if !kvAvailable then
    ({ status := .failed, progress := 0, errors := [] }, store)
  else
    match validateData staticCats staticSites with
    | some msg => ({ status := .failed, progress := 10, errors := [msg] }, store)
    | none =>
      if failKeys.contains KV_CATEGORIES then
        ({ status := .failed, progress := 30,
           errors := [kvSetFailMsg KV_CATEGORIES] }, store)
      else
        let store1 := { store with categories := some staticCats }
        if failKeys.contains KV_SITES then
          ({ status := .failed, progress := 50,
             errors := [kvSetFailMsg KV_SITES] }, store1)
        else
          let store2 := { store1 with sites := some staticSites }
          if failKeys.contains KV_METADATA then
            ({ status := .failed, progress := 70,
               errors := [kvSetFailMsg KV_METADATA] }, store2)
          else
            let meta : MigMeta := ⟨staticCats.length, staticSites.length, now⟩
            let store3 := { store2 with metadata := some meta }
            if failKeys.contains KV_VERSION then
              ({ status := .failed, progress := 85,
                 errors := [kvSetFailMsg KV_VERSION] }, store3)
            else
              let vinfo : VersionInfo := ⟨DATA_VERSION_CURRENT, now, DATA_VERSION_COMPATIBLE⟩
              let store4 := { store3 with version := some vinfo }
              ({ status := .completed, progress := 100, errors := [] }, store4)

/-! ## Search helpers (claim C9)

`DataManager.searchSites` (src/unnamed/part_008, lines 191-205) matches a
lowercased query against four lowercased fields; the `searchSites` function
emitted into the regenerated bundled-dataset source by
`MigrationTool.generateStaticFileCode` (src/unnamed/part_009, lines
300-310) matches against three — `shortDesc` is absent there. -/

/-- One site's match in `DataManager.searchSites`. -/
def siteMatchesDM (lq : String) (t : Site) : Bool :=
  strIncludes (jsLower t.title) lq ||
  strIncludes (jsLower t.description) lq ||
  strIncludes (jsLower t.shortDesc) lq ||
  strIncludes (jsLower t.category) lq

/-- One site's match in the emitted `searchSites`. -/
def siteMatchesGen (lq : String) (t : Site) : Bool :=
  strIncludes (jsLower t.title) lq ||
  strIncludes (jsLower t.description) lq ||
  strIncludes (jsLower t.category) lq

/-- `DataManager.searchSites` over a site collection. -/
def dmSearchSites (sites : List Site) (query : String) : List Site :=
  if query == "" then sites
  else sites.filter (siteMatchesDM (jsLower query))

/-- The `searchSites` emitted by `generateStaticFileCode`, over the same
collection. -/
def genSearchSites (sites : List Site) (query : String) : List Site :=
  if query == "" then sites
  else sites.filter (siteMatchesGen (jsLower query))

/-! ## Helper lemmas -/

theorem mapGet_eq_none_iff (k : String) (m : List (String × β)) :
    mapGet k m = none ↔ k ∉ m.map Prod.fst := by
  induction m with
  | nil => simp [mapGet]
  | cons p rest ih =>
      obtain ⟨k', v'⟩ := p
      by_cases h : k' = k
      · subst h
        simp [mapGet]
      · simp only [mapGet]
        rw [if_neg (by simpa using h)]
        simp [ih, Ne.symm h]

theorem mapGet_mapSet_self (k : String) (v : β) (m : List (String × β)) :
    mapGet k (mapSet k v m) = some v := by
  induction m with
  | nil => simp [mapSet, mapGet]
  | cons p rest ih =>
      obtain ⟨k', v'⟩ := p
      by_cases h : k' = k
      · subst h
        simp [mapSet, mapGet]
      · simp only [mapSet]
        rw [if_neg (by simpa using h)]
        simp only [mapGet]
        rw [if_neg (by simpa using h)]
        exact ih

theorem mapSet_of_not_mem (k : String) (v : β) (m : List (String × β))
    (h : k ∉ m.map Prod.fst) : mapSet k v m = m ++ [(k, v)] := by
  induction m with
  | nil => simp [mapSet]
  | cons p rest ih =>
      obtain ⟨k', v'⟩ := p
      simp only [List.map_cons, List.mem_cons] at h
      push_neg at h
      simp only [mapSet]
      rw [if_neg (by simpa using Ne.symm h.1)]
      simp [ih h.2]

theorem mapGet_append (k : String) (m n : List (String × β)) :
    mapGet k (m ++ n) =
      match mapGet k m with
      | some v => some v
      | none => mapGet k n := by
  induction m with
  | nil => simp [mapGet]
  | cons p rest ih =>
      obtain ⟨k', v'⟩ := p
      by_cases h : k' = k
      · subst h
        simp [mapGet]
      · simp only [List.cons_append, mapGet]
        rw [if_neg (by simpa using h), if_neg (by simpa using h)]
        exact ih

theorem mapGet_mapDelete_self (k : String) (m : List (String × β)) :
    mapGet k (mapDelete k m) = none := by
  induction m with
  | nil => simp [mapDelete, mapGet]
  | cons p rest ih =>
      obtain ⟨k', v'⟩ := p
      by_cases h : k' = k
      · subst h
        simpa [mapDelete] using ih
      · simp only [mapDelete, List.filter_cons]
        rw [if_pos (by simpa using h)]
        simp only [mapGet]
        rw [if_neg (by simpa using h)]
        simpa [mapDelete] using ih

theorem mapGet_mapDelete_ne (k k' : String) (m : List (String × β))
    (h : k' ≠ k) : mapGet k' (mapDelete k m) = mapGet k' m := by
  induction m with
  | nil => simp [mapDelete]
  | cons p rest ih =>
      obtain ⟨k'', v''⟩ := p
      cases hbeq : ((k'' : String) == k) with
      | true =>
          have hkk : k'' = k := by simpa using hbeq
          have hq : ((k'' : String) == k') = false := by
            apply beq_eq_false_iff_ne.mpr
            rw [hkk]
            exact Ne.symm h
          simp only [mapDelete, List.filter_cons, hbeq, Bool.not_true, if_false,
            mapGet, hq]
          simpa [mapDelete] using ih
      | false =>
          simp only [mapDelete, List.filter_cons, hbeq, Bool.not_false, if_true,
            mapGet]
          cases hq : ((k'' : String) == k') with
          | true => simp [hq]
          | false =>
              rw [if_neg (by simp [hq]), if_neg (by simp [hq])]
              simpa [mapDelete] using ih

theorem mapDelete_length_of_mem (k : String) (m : List (String × β))
    (hmem : k ∈ m.map Prod.fst) (hnd : (m.map Prod.fst).Nodup) :
    (mapDelete k m).length = m.length - 1 := by
  induction m with
  | nil => simp at hmem
  | cons p rest ih =>
      obtain ⟨k', v'⟩ := p
      simp only [List.map_cons, List.nodup_cons] at hnd
      rcases List.mem_cons.mp hmem with h | h
      · have h1 : (!((k' : String) == k)) = false := by simp [h]
        have hrest : mapDelete k rest = rest := by
          apply List.filter_eq_self.mpr
          intro q hq
          have hne : q.1 ≠ k := by
            intro he
            have hmem' : q.1 ∈ rest.map Prod.fst := List.mem_map_of_mem Prod.fst hq
            rw [he, h] at hmem'
            exact hnd.1 hmem'
          simpa using hne
        simp only [mapDelete, List.filter_cons, h1, if_false] at hrest ⊢
        simp [hrest]
      · have hne : k' ≠ k := by
          intro he
          exact hnd.1 (he ▸ h)
        have h1 : (!((k' : String) == k)) = true := by simpa using hne
        simp only [mapDelete, List.filter_cons, h1, if_true, List.length_cons]
        have := ih h hnd.2
        simp only [mapDelete] at this
        rw [this]
        have hpos : 0 < rest.length := by
          rcases List.mem_map.mp h with ⟨q, hq, _⟩
          exact List.length_pos.mpr (fun hnil => by simp [hnil] at hq)
        omega

theorem substrB_self_append (x rest : List Char) : substrB x (x ++ rest) = true := by
  cases x with
  | nil =>
      cases rest with
      | nil => rfl
      | cons c t => simp [substrB]
  | cons c t =>
      simp only [List.cons_append, substrB]
      rw [if_pos]
      exact List.isPrefixOf_iff_prefix.mpr ⟨rest, by simp⟩

theorem substrB_append_left (x pre rest : List Char)
    (h : substrB x rest = true) : substrB x (pre ++ rest) = true := by
  induction pre with
  | nil => simpa using h
  | cons c t ih =>
      simp only [List.cons_append, substrB]
      split
      · rfl
      · exact ih

theorem updateFirst_eq_none_iff (p : α → Bool) (f : α → α) (l : List α) :
    updateFirst p f l = none ↔ ∀ x ∈ l, p x = false := by
  induction l with
  | nil => simp [updateFirst]
  | cons x xs ih =>
      by_cases h : p x
      · simp [updateFirst, h]
      · simp only [updateFirst, if_neg h]
        simp only [Option.map_eq_none', ih, List.mem_cons]
        constructor
        · intro hall y hy
          rcases hy with hy | hy
          · subst hy
            exact Bool.eq_false_iff.mpr h
          · exact hall y hy
        · intro hall y hy
          exact hall y (Or.inr hy)

theorem updateFirst_eq_map (p : α → Bool) (f : α → α) (l : List α)
    (huniq : l.Pairwise (fun a b => p a = true → p b = false))
    (hex : ∃ x ∈ l, p x = true) :
    updateFirst p f l = some (l.map (fun x => if p x then f x else x)) := by
  induction l with
  | nil => simp at hex
  | cons x xs ih =>
      rcases List.pairwise_cons.mp huniq with ⟨hhead, htail⟩
      by_cases h : p x
      · have hrest : xs.map (fun y => if p y then f y else y) = xs := by
          apply List.map_congr_left ?_ |>.trans (List.map_id xs)
          intro y hy
          simp [hhead y hy h]
        simp [updateFirst, h, hrest]
      · have hex' : ∃ y ∈ xs, p y = true := by
          rcases hex with ⟨y, hy, hpy⟩
          rcases List.mem_cons.mp hy with rfl | hy'
          · exact absurd hpy (by simpa using h)
          · exact ⟨y, hy', hpy⟩
        simp [updateFirst, h, ih htail hex']

instance {ε α : Type} [DecidableEq ε] [DecidableEq α] : DecidableEq (Except ε α) :=
  fun a b =>
    match a, b with
    | .ok a, .ok b =>
        if h : a = b then isTrue (by rw [h]) else
          isFalse (fun hh => h (by injection hh))
    | .error e, .error f =>
        if h : e = f then isTrue (by rw [h]) else
          isFalse (fun hh => h (by injection hh))
    | .ok _, .error _ => isFalse (fun hh => Except.noConfusion hh)
    | .error _, .ok _ => isFalse (fun hh => Except.noConfusion hh)

theorem strIncludes_data (m x : String) (pre post : List Char)
    (h : m.data = pre ++ (x.data ++ post)) : strIncludes m x = true := by
  unfold strIncludes
  rw [h]
  exact substrB_append_left _ _ _ (substrB_self_append _ _)

theorem not_mem_map_of_any_eq_false (f : α → String) (l : List α) (x : String)
    (h : (l.any fun a => f a == x) = false) : x ∉ l.map f := by
  intro hx
  rcases List.mem_map.mp hx with ⟨a, ha, rfl⟩
  rw [List.any_eq_false] at h
  exact h a ha (by simp)

/-! ## Concrete fixtures -/

def devCat : Category := { id := "dev", name := "Dev", icon := "💻" }
def ghSite : Site :=
  { id := "gh", title := "GitHub", url := "https://github.com", category := "dev" }
def ghostSite : Site :=
  { id := "gx", title := "Ghost", url := "https://ghost.example", category := "ghost" }

/-! ## Claim C1 -/

/-- The side condition `addSite` would need for referential integrity: the
site's category must exist.  The source performs no such check. -/
def opFKGuard : MutOp → DMData → Prop
  | .addSit st, s => ∃ c ∈ s.categories, c.id = st.category
  | _, _ => True

def c1s0 : DMData := { categories := [devCat], sites := [] }
def c1s1 : DMData := { categories := [devCat], sites := [ghostSite] }

/-- C1 counterexample: from a state satisfying the §3 invariants, the
single call `addSite` with a site naming a non-existent category *succeeds*
— `addSite` checks id and url uniqueness but never referential integrity —
and the resulting state violates the §3 invariants.  So it is not the case
that every call either succeeds with all invariants intact or fails with a
Validation error. -/
theorem C1_counterexample :
    Invariants c1s0 ∧
    stepOp (MutOp.addSit ghostSite) c1s0 = .ok c1s1 ∧
    ¬ Invariants c1s1 :=
  ⟨by decide, rfl, by decide⟩

/-- C1 (amended): for every state satisfying the §3 invariants, each
`addCategory`/`addSite`/`deleteCategory`/`deleteSite` call either succeeds
with all §3 invariants preserved — provided, for `addSite`, that the added
site's category names an existing category (a condition the code does not
check) — or fails with a Validation error, leaving the state unchanged
(the `Except` embedding returns no new state on error, matching the source,
whose validation throws all occur before the collection is touched). -/
theorem C1_invariant_preservation (s : DMData) (op : MutOp)
    (hInv : Invariants s) (hFK : opFKGuard op s) :
    match stepOp op s with
    | .ok s' => Invariants s'
    | .error e => e.etype = ErrorType.validation := by
  obtain ⟨h1, h2, h3, h4⟩ := hInv
  cases op with
  | addCat c =>
      show (match addCategory c s with
        | .ok s' => Invariants s'
        | .error e => e.etype = ErrorType.validation)
      unfold addCategory
      by_cases hdup : s.categories.any (fun cat => cat.id == c.id) = true
      · rw [if_pos hdup]
        rfl
      · rw [if_neg hdup]
        show Invariants { s with categories := s.categories ++ [c] }
        have hfresh : c.id ∉ s.categories.map Category.id :=
          not_mem_map_of_any_eq_false _ _ _ (by simpa using hdup)
        refine ⟨?_, h2, h3, ?_⟩
        · rw [List.map_append]
          exact List.Nodup.append h1 (by simp)
            (List.disjoint_singleton.mpr (by simpa using hfresh))
        · intro st hst
          obtain ⟨c', hc', he⟩ := h4 st hst
          exact ⟨c', List.mem_append_left _ hc', he⟩
  | addSit st =>
      show (match addSite st s with
        | .ok s' => Invariants s'
        | .error e => e.etype = ErrorType.validation)
      unfold addSite
      by_cases hid : s.sites.any (fun t => t.id == st.id) = true
      · rw [if_pos hid]
        rfl
      · rw [if_neg hid]
        by_cases hurl : s.sites.any (fun t => t.url == st.url) = true
        · rw [if_pos hurl]
          rfl
        · rw [if_neg hurl]
          show Invariants { s with sites := s.sites ++ [st] }
          have hfid : st.id ∉ s.sites.map Site.id :=
            not_mem_map_of_any_eq_false _ _ _ (by simpa using hid)
          have hfurl : st.url ∉ s.sites.map Site.url :=
            not_mem_map_of_any_eq_false _ _ _ (by simpa using hurl)
          have hcat : ∃ c ∈ s.categories, c.id = st.category := hFK
          refine ⟨h1, ?_, ?_, ?_⟩
          · rw [List.map_append]
            exact List.Nodup.append h2 (by simp)
              (List.disjoint_singleton.mpr (by simpa using hfid))
          · rw [List.map_append]
            exact List.Nodup.append h3 (by simp)
              (List.disjoint_singleton.mpr (by simpa using hfurl))
          · intro t ht
            rcases List.mem_append.mp ht with ht' | ht'
            · exact h4 t ht'
            · rcases List.mem_singleton.mp ht' with rfl
              exact hcat
  | delCat cid =>
      show (match deleteCategory cid s with
        | .ok s' => Invariants s'
        | .error e => e.etype = ErrorType.validation)
      unfold deleteCategory
      by_cases hblk : 0 < (s.sites.filter (fun st => st.category == cid)).length
      · rw [if_pos hblk]
        rfl
      · rw [if_neg hblk]
        show Invariants
          { s with categories := s.categories.filter (fun c => !(c.id == cid)) }
        have hnone : ∀ t ∈ s.sites, t.category ≠ cid := by
          intro t ht he
          apply hblk
          apply List.length_pos.mpr
          intro hnil
          have : t ∈ s.sites.filter (fun st => st.category == cid) :=
            List.mem_filter.mpr ⟨ht, by simp [he]⟩
          simp [hnil] at this
        refine ⟨?_, h2, h3, ?_⟩
        · exact (List.Sublist.map Category.id (List.filter_sublist _)).nodup h1
        · intro t ht
          obtain ⟨c', hc', he⟩ := h4 t ht
          refine ⟨c', List.mem_filter.mpr ⟨hc', ?_⟩, he⟩
          have : c'.id ≠ cid := he ▸ hnone t ht
          simpa using this
  | delSit sid =>
      show (match deleteSite sid s with
        | .ok s' => Invariants s'
        | .error e => e.etype = ErrorType.validation)
      unfold deleteSite
      by_cases hlen :
          ((s.sites.filter (fun t => !(t.id == sid))).length == s.sites.length) = true
      · rw [if_pos hlen]
        rfl
      · rw [if_neg hlen]
        show Invariants
          { s with sites := s.sites.filter (fun t => !(t.id == sid)) }
        refine ⟨h1, ?_, ?_, ?_⟩
        · exact (List.Sublist.map Site.id (List.filter_sublist _)).nodup h2
        · exact (List.Sublist.map Site.url (List.filter_sublist _)).nodup h3
        · intro t ht
          exact h4 t (List.mem_filter.mp ht).1

/-- C1 witness: a concrete successful `addCategory` preserving the
invariants. -/
theorem C1_invariant_preservation_witness :
    (match stepOp (MutOp.addCat { id := "ops", name := "Ops" }) c1s0 with
      | .ok s' => Invariants s'
      | .error e => e.etype = ErrorType.validation) :=
  C1_invariant_preservation c1s0 (MutOp.addCat { id := "ops", name := "Ops" })
    (by decide) trivial

/-! ## Claim C2 -/

def mig0 : KVStore := {}

/-- C2 counterexample: with a perfectly valid dataset, a write error on the
sites collection (after the categories write succeeded) marks the migration
FAILED — but the remote store now holds the categories collection and not
the sites collection: the two collections ARE partially applied, refuting
the claim's "not partially applied" for write errors. -/
theorem C2_counterexample :
    (migrateToKV true [devCat] [ghSite] [KV_SITES] 0 mig0).1.status =
      MigrationStatus.failed ∧
    (migrateToKV true [devCat] [ghSite] [KV_SITES] 0 mig0).2.categories =
      some [devCat] ∧
    (migrateToKV true [devCat] [ghSite] [KV_SITES] 0 mig0).2.sites = none ∧
    (migrateToKV true [devCat] [ghSite] [KV_SITES] 0 mig0).2 ≠ mig0 := by
  refine ⟨rfl, rfl, rfl, by decide⟩

/-- C2 (amended): a validation failure (duplicate id, dangling category
reference, missing required fields) marks the migration FAILED with the
error collected and happens before any write, leaving the remote store
untouched; a write error also marks the migration FAILED with the error
collected, but writes already performed are not rolled back — a failed
sites write leaves the categories collection applied. -/
theorem C2_failure_semantics (cats : List Category) (sites : List Site)
    (fk : List String) (now : Nat) (store : KVStore) :
    (∀ msg, validateData cats sites = some msg →
       migrateToKV true cats sites fk now store =
         ({ status := .failed, progress := 10, errors := [msg] }, store)) ∧
    (validateData cats sites = none → fk.contains KV_CATEGORIES = true →
       migrateToKV true cats sites fk now store =
         ({ status := .failed, progress := 30,
            errors := [kvSetFailMsg KV_CATEGORIES] }, store)) ∧
    (validateData cats sites = none → fk.contains KV_CATEGORIES = false →
       fk.contains KV_SITES = true →
       migrateToKV true cats sites fk now store =
         ({ status := .failed, progress := 50,
            errors := [kvSetFailMsg KV_SITES] },
          { store with categories := some cats })) := by
  refine ⟨?_, ?_, ?_⟩
  · intro msg hv
    simp [migrateToKV, hv]
  · intro hv hcat
    have hcat' : KV_CATEGORIES ∈ fk := by simpa using hcat
    simp [migrateToKV, hv, hcat']
  · intro hv hcat hsites
    have hcat' : KV_CATEGORIES ∉ fk := by simpa using hcat
    have hsites' : KV_SITES ∈ fk := by simpa using hsites
    simp [migrateToKV, hv, hcat', hsites']

/-- C2 witness: a duplicate category id fails validation, is collected,
and the store is untouched. -/
theorem C2_failure_semantics_witness :
    migrateToKV true [devCat, devCat] [] [] 0 mig0 =
      ({ status := .failed, progress := 10, errors := [dupCatIdMsg] }, mig0) :=
  (C2_failure_semantics [devCat, devCat] [] [] 0 mig0).1 dupCatIdMsg (by decide)

/-! ## Claim C3 -/

def c3bundled : StaticState := { categories := [devCat], sites := [] }

theorem readOnlyErr_etype : readOnlyErr.etype = ErrorType.unknown := by decide

/-- C3 counterexample: in STATIC mode, `addSite` with a fresh, valid site
fails with the read-only error — but it has already pushed the site onto
the shared in-memory array, so a subsequent `getSites` no longer returns
the bundled dataset unchanged, refuting "getCategories()/getSites() always
return the bundled dataset unchanged ... regardless of call order". -/
theorem C3_counterexample :
    (staticStep (AdminOp.addSit ghSite) c3bundled).1 = readOnlyErr ∧
    staticGetSites (staticStep (AdminOp.addSit ghSite) c3bundled).2 ≠
      staticGetSites c3bundled := by
  refine ⟨rfl, by decide⟩

/-- C3 (amended): in STATIC mode every write call fails — with the
read-only-mode error when the input passes the operation's own validation,
and with a Validation error (leaving the dataset unchanged) otherwise; but
`addCategory`/`addSite`/`updateCategory`/`updateSite` mutate the shared
in-memory dataset before the read-only error is thrown, so only the delete
operations are guaranteed to leave the dataset the reads return
unchanged. -/
theorem C3_static_mode (op : AdminOp) (s : StaticState) :
    ((staticStep op s).1 = readOnlyErr ∨
       (staticStep op s).1.etype = ErrorType.validation) ∧
    ((staticStep op s).1.etype = ErrorType.validation →
       (staticStep op s).2 = s) ∧
    (∀ cid, op = AdminOp.delCat cid → (staticStep op s).2 = s) ∧
    (∀ sid, op = AdminOp.delSit sid → (staticStep op s).2 = s) := by
  have hro : readOnlyErr.etype ≠ ErrorType.validation := by decide
  cases op with
  | addCat c =>
      by_cases hdup : (s.categories.any (fun cat => cat.id == c.id)) = true
      · simp [staticStep, hdup, hro, validationError]
      · simp [staticStep, hdup, hro, validationError]
  | updCat cid u =>
      cases hupd : updateFirst (fun c => c.id == cid)
          (fun c => mergeCategory c u) s.categories with
      | none => simp [staticStep, hupd, hro, validationError]
      | some cats => simp [staticStep, hupd, hro, validationError]
  | delCat cid =>
      by_cases hblk :
          0 < (s.sites.filter (fun st => st.category == cid)).length
      · simp [staticStep, hblk, hro, validationError]
      · simp [staticStep, hblk, hro, validationError]
  | addSit st =>
      by_cases hid : (s.sites.any (fun t => t.id == st.id)) = true
      · simp [staticStep, hid, hro, validationError]
      · by_cases hurl : (s.sites.any (fun t => t.url == st.url)) = true
        · simp [staticStep, hid, hurl, hro, validationError]
        · simp [staticStep, hid, hurl, hro, validationError]
  | updSit sid u =>
      cases hupd : updateFirst (fun t => t.id == sid)
          (fun t => mergeSite t u) s.sites with
      | none => simp [staticStep, hupd, hro, validationError]
      | some sts => simp [staticStep, hupd, hro, validationError]
  | delSit sid =>
      by_cases hlen :
          ((s.sites.filter (fun t => !(t.id == sid))).length == s.sites.length) = true
      · simp [staticStep, hlen, hro, validationError]
      · simp [staticStep, hlen, hro, validationError]

/-- C3 witness: a duplicate-id `addCategory` fails with a Validation error
and leaves the dataset unchanged; a `deleteCategory` leaves it unchanged. -/
theorem C3_static_mode_witness :
    (staticStep (AdminOp.addCat devCat) c3bundled).2 = c3bundled ∧
    (staticStep (AdminOp.delCat "zzz") c3bundled).2 = c3bundled :=
  ⟨(C3_static_mode (AdminOp.addCat devCat) c3bundled).2.1 (by decide),
   (C3_static_mode (AdminOp.delCat "zzz") c3bundled).2.2.1 "zzz" rfl⟩

/-! ## Claim C4 -/

/-- `findIndex` + in-place replacement over records keyed by an id field:
it misses exactly when no record carries the key, and with unique ids a hit
replaces precisely the keyed record. -/
theorem updateFirst_by_id (f : α → String) (g : α → α) (key : String)
    (l : List α) (hNodup : (l.map f).Nodup) :
    (updateFirst (fun x => f x == key) g l = none ↔ ∀ x ∈ l, f x ≠ key) ∧
    ((∃ x ∈ l, f x = key) →
       updateFirst (fun x => f x == key) g l =
         some (l.map (fun x => if f x == key then g x else x))) := by
  constructor
  · rw [updateFirst_eq_none_iff]
    constructor
    · intro h x hx
      simpa using h x hx
    · intro h x hx
      simpa using h x hx
  · rintro ⟨t, ht, hid⟩
    have hpair : l.Pairwise
        (fun a b => ((f a == key) = true) → ((f b == key) = false)) := by
      have hp : l.Pairwise (fun a b => f a ≠ f b) := List.pairwise_map.mp hNodup
      refine hp.imp ?_
      intro a b hne hbeq
      apply beq_eq_false_iff_ne.mpr
      intro he
      have ha : f a = key := by simpa using hbeq
      exact hne (ha.trans he.symm)
    exact updateFirst_eq_map _ _ l hpair ⟨t, ht, by simp [hid]⟩

def c4old : Site :=
  { id := "gh", title := "GitHub", url := "https://github.com",
    category := "dev", lastModified := some 5 }
def c4state : DMData := { categories := [devCat], sites := [c4old] }
def c4upd : SiteUpdate := { title := some "GitHub Home" }

def c4oldCat : Category := { id := "tools", name := "Tools", lastModified := some 5 }
def c4catState : DMData := { categories := [c4oldCat], sites := [] }
def c4catUpd : CategoryUpdate := { name := some "Dev Tools" }

/-- C4 counterexample: both `updateSite` and `updateCategory` merge the
partial over the record but stamp nothing — each result keeps the record's
old `lastModified` (5), so for an update performed at any time other than 5
(e.g. 100) the produced record does not carry the update time.  (The
`lastModified` stamp observed at the HTTP layer is injected into the
partial by the PUT handlers, not by `updateSite`/`updateCategory`.) -/
theorem C4_counterexample :
    (updateSite "gh" c4upd c4state =
       .ok { c4state with sites := [{ c4old with title := "GitHub Home" }] } ∧
     ({ c4old with title := "GitHub Home" } : Site).lastModified = some 5) ∧
    (updateCategory "tools" c4catUpd c4catState =
       .ok { c4catState with categories :=
         [{ c4oldCat with name := "Dev Tools" }] } ∧
     ({ c4oldCat with name := "Dev Tools" } : Category).lastModified = some 5) ∧
    (5 : Nat) ≠ 100 := by
  refine ⟨⟨by decide, rfl⟩, ⟨by decide, rfl⟩, by decide⟩

/-- C4 (amended): for an id carried by some record, `updateCategory` and
`updateSite` replace that record by the partial's fields merged over it —
every field, including `lastModified`, changes only if the partial carries
it (the update time is not stamped by these functions); for a non-existent
id each call fails with a Validation error. -/
theorem C4_update_merge :
    (∀ (s : DMData) (cid : String) (u : CategoryUpdate),
       (s.categories.map Category.id).Nodup →
       ((updateCategory cid u s = .error (validationError (catMissingMsg cid)) ↔
           ∀ c ∈ s.categories, c.id ≠ cid) ∧
        ((∃ c ∈ s.categories, c.id = cid) →
           updateCategory cid u s =
             .ok { s with categories :=
               s.categories.map (fun x => if x.id == cid then mergeCategory x u else x) }))) ∧
    (∀ (s : DMData) (sid : String) (u : SiteUpdate),
       (s.sites.map Site.id).Nodup →
       ((updateSite sid u s = .error (validationError (siteMissingMsg sid)) ↔
           ∀ t ∈ s.sites, t.id ≠ sid) ∧
        ((∃ t ∈ s.sites, t.id = sid) →
           updateSite sid u s =
             .ok { s with sites :=
               s.sites.map (fun x => if x.id == sid then mergeSite x u else x) }))) := by
  constructor
  · intro s cid u hNodup
    have hgen := updateFirst_by_id Category.id (fun c => mergeCategory c u)
      cid s.categories hNodup
    constructor
    · constructor
      · intro h
        cases hu : updateFirst (fun c => c.id == cid)
            (fun c => mergeCategory c u) s.categories with
        | none => exact hgen.1.mp hu
        | some cats =>
            unfold updateCategory at h
            rw [hu] at h
            exact absurd h (by simp)
      · intro hall
        unfold updateCategory
        rw [hgen.1.mpr hall]
    · intro hex
      unfold updateCategory
      rw [hgen.2 hex]
  · intro s sid u hNodup
    have hgen := updateFirst_by_id Site.id (fun t => mergeSite t u)
      sid s.sites hNodup
    constructor
    · constructor
      · intro h
        cases hu : updateFirst (fun t => t.id == sid)
            (fun t => mergeSite t u) s.sites with
        | none => exact hgen.1.mp hu
        | some sts =>
            unfold updateSite at h
            rw [hu] at h
            exact absurd h (by simp)
      · intro hall
        unfold updateSite
        rw [hgen.1.mpr hall]
    · intro hex
      unfold updateSite
      rw [hgen.2 hex]

/-- C4 witness: a concrete successful merge-update of each kind. -/
theorem C4_update_merge_witness :
    updateSite "gh" c4upd c4state =
      .ok { c4state with sites :=
        c4state.sites.map (fun x => if x.id == "gh" then mergeSite x c4upd else x) } ∧
    updateCategory "tools" c4catUpd c4catState =
      .ok { c4catState with categories :=
        c4catState.categories.map (fun x => if x.id == "tools" then mergeCategory x c4catUpd else x) } :=
  ⟨(C4_update_merge.2 c4state "gh" c4upd (by decide)).2 ⟨c4old, by decide, by decide⟩,
   (C4_update_merge.1 c4catState "tools" c4catUpd (by decide)).2
     ⟨c4oldCat, by decide, by decide⟩⟩

/-! ## Claim C5 -/

def c5state : DMData := { categories := [devCat], sites := [ghSite] }

/-- C5: `deleteCategory(id)` with at least one bookmark whose `category`
equals the id fails with a Validation error whose message names both the
category and the number of blocking bookmarks (the state is unchanged: the
embedding returns no state on error, and the source throws before saving);
with no referencing bookmark the same call succeeds and removes the
category from the collection. -/
theorem C5_deleteCategory (s : DMData) (cid : String) :
    (0 < (s.sites.filter (fun st => st.category == cid)).length →
       deleteCategory cid s =
         .error (validationError
           (delCatBlockedMsg cid
             (s.sites.filter (fun st => st.category == cid)).length)) ∧
       strIncludes
         (delCatBlockedMsg cid
           (s.sites.filter (fun st => st.category == cid)).length)
         (toString (s.sites.filter (fun st => st.category == cid)).length) = true ∧
       strIncludes
         (delCatBlockedMsg cid
           (s.sites.filter (fun st => st.category == cid)).length)
         cid = true) ∧
    ((s.sites.filter (fun st => st.category == cid)).length = 0 →
       deleteCategory cid s =
         .ok { s with categories :=
           s.categories.filter (fun c => !(c.id == cid)) }) := by
  constructor
  · intro h
    refine ⟨?_, ?_, ?_⟩
    · unfold deleteCategory
      rw [if_pos h]
    · apply strIncludes_data _ _
        ("无法删除分类 \"".data ++ (cid.data ++ "\"，还有 ".data))
        " 个网站使用此分类".data
      simp [delCatBlockedMsg, String.data_append, List.append_assoc]
    · apply strIncludes_data _ _
        "无法删除分类 \"".data
        ("\"，还有 ".data ++
          ((toString (s.sites.filter (fun st => st.category == cid)).length).data ++
            " 个网站使用此分类".data))
      simp [delCatBlockedMsg, String.data_append, List.append_assoc]
  · intro h
    unfold deleteCategory
    rw [if_neg (by omega)]

/-- C5 witness: with one referencing bookmark the delete is blocked with
the count in the message; with none it removes the category. -/
theorem C5_deleteCategory_witness :
    deleteCategory "dev" c5state =
      .error (validationError (delCatBlockedMsg "dev" 1)) ∧
    deleteCategory "nope" c5state =
      .ok { c5state with categories :=
        c5state.categories.filter (fun c => !(c.id == "nope")) } :=
  ⟨((C5_deleteCategory c5state "dev").1 (by decide)).1,
   (C5_deleteCategory c5state "nope").2 (by decide)⟩

/-! ## Claim C6 -/

theorem mem_mapSet_keys_iff (x k : String) (v : β) (m : List (String × β)) :
    x ∈ (mapSet k v m).map Prod.fst ↔ x ∈ m.map Prod.fst ∨ x = k := by
  induction m with
  | nil => simp [mapSet]
  | cons p rest ih =>
      obtain ⟨k', v'⟩ := p
      cases hbeq : ((k' : String) == k) with
      | true =>
          have hkk : k' = k := by simpa using hbeq
          subst hkk
          simp only [mapSet, hbeq, if_true, List.map_cons, List.mem_cons]
          constructor
          · rintro (rfl | h)
            · exact Or.inr rfl
            · exact Or.inl (Or.inr h)
          · rintro ((rfl | h) | rfl)
            · exact Or.inl rfl
            · exact Or.inr h
            · exact Or.inl rfl
      | false =>
          simp only [mapSet, hbeq, Bool.false_eq_true, if_false, List.map_cons,
            List.mem_cons, ih]
          tauto

theorem mapSet_keys_nodup (k : String) (v : β) (m : List (String × β))
    (h : (m.map Prod.fst).Nodup) : ((mapSet k v m).map Prod.fst).Nodup := by
  induction m with
  | nil => simp [mapSet]
  | cons p rest ih =>
      obtain ⟨k', v'⟩ := p
      simp only [List.map_cons, List.nodup_cons] at h
      cases hbeq : ((k' : String) == k) with
      | true =>
          have hkk : k' = k := by simpa using hbeq
          subst hkk
          simp only [mapSet, hbeq, if_true, List.map_cons, List.nodup_cons]
          exact ⟨h.1, h.2⟩
      | false =>
          have hkk : k' ≠ k := by simpa using hbeq
          simp only [mapSet, hbeq, Bool.false_eq_true, if_false, List.map_cons,
            List.nodup_cons]
          refine ⟨?_, ih h.2⟩
          intro hmem
          rcases (mem_mapSet_keys_iff k' k v rest).mp hmem with hmem' | he
          · exact h.1 hmem'
          · exact hkk he

def c6empty : MemoryCache Nat := {}

/-- C6: after `set(k, v, ttl)` at time `t0` on a well-formed cache, a
`get(k)` at time `t1` with `t1 - t0 ≤ ttl` returns `v`; with
`t1 - t0 > ttl` it returns absent, and afterwards the entry is gone and the
internal size has dropped by one (lazy expiry). -/
theorem C6_cache_ttl (α : Type) (c : MemoryCache α) (k : String) (v : α)
    (ttl t0 t1 : Nat) (hWF : (c.cache.map Prod.fst).Nodup) :
    (t1 - t0 ≤ ttl → (mcGet k t1 (mcSet k v ttl t0 c)).1 = some v) ∧
    (ttl < t1 - t0 →
       (mcGet k t1 (mcSet k v ttl t0 c)).1 = none ∧
       mapGet k ((mcGet k t1 (mcSet k v ttl t0 c)).2.cache) = none ∧
       mcSize (mcGet k t1 (mcSet k v ttl t0 c)).2 =
         mcSize (mcSet k v ttl t0 c) - 1) := by
  have hget : mapGet k (mcSet k v ttl t0 c).cache =
      some { data := v, timestamp := t0, ttl := ttl } :=
    mapGet_mapSet_self k _ c.cache
  constructor
  · intro h
    simp only [mcGet, hget]
    rw [if_neg (by simp; omega)]
  · intro h
    have hcond : ({ data := v, timestamp := t0, ttl := ttl } : CacheEntry α).ttl <
        t1 - ({ data := v, timestamp := t0, ttl := ttl } : CacheEntry α).timestamp := h
    simp only [mcGet, hget]
    rw [if_pos hcond]
    refine ⟨rfl, ?_, ?_⟩
    · exact mapGet_mapDelete_self k _
    · show (mapDelete k (mcSet k v ttl t0 c).cache).length =
        (mcSet k v ttl t0 c).cache.length - 1
      apply mapDelete_length_of_mem
      · by_contra hk
        have := (mapGet_eq_none_iff k (mcSet k v ttl t0 c).cache).mpr hk
        rw [this] at hget
        cases hget
      · exact mapSet_keys_nodup k _ c.cache hWF

/-- C6 witness: a fresh get before expiry returns the value; past the ttl
it returns absent. -/
theorem C6_cache_ttl_witness :
    (mcGet "k" 5 (mcSet "k" (7 : Nat) 10 0 c6empty)).1 = some 7 ∧
    (mcGet "k" 11 (mcSet "k" (7 : Nat) 10 0 c6empty)).1 = none :=
  ⟨(C6_cache_ttl Nat c6empty "k" 7 10 0 5 (by decide)).1 (by decide),
   ((C6_cache_ttl Nat c6empty "k" 7 10 0 11 (by decide)).2 (by decide)).1⟩

/-! ## Claim C7 -/

/-- The head of the access-time sort is the entry with the strictly oldest
access time. -/
theorem mergeSort_byAccessTime_head (l : List (String × Nat)) (kmin : String)
    (tmin : Nat) (hmem : (kmin, tmin) ∈ l)
    (hstrict : ∀ p ∈ l, p ≠ (kmin, tmin) → tmin < p.2) :
    (l.mergeSort byAccessTime).head? = some (kmin, tmin) := by
  have htrans : ∀ (a b c : String × Nat), byAccessTime a b = true →
      byAccessTime b c = true → byAccessTime a c = true := by
    intro a b c hab hbc
    simp only [byAccessTime, decide_eq_true_eq] at *
    omega
  have htotal : ∀ (a b : String × Nat),
      (byAccessTime a b || byAccessTime b a) = true := by
    intro a b
    simp only [byAccessTime, Bool.or_eq_true, decide_eq_true_eq]
    omega
  have hperm : (l.mergeSort byAccessTime).Perm l := List.mergeSort_perm l byAccessTime
  have hsorted := List.sorted_mergeSort htrans htotal l
  have hne : l.mergeSort byAccessTime ≠ [] := by
    intro hnil
    have : (kmin, tmin) ∈ l.mergeSort byAccessTime := hperm.mem_iff.mpr hmem
    simp [hnil] at this
  obtain ⟨h, t, hht⟩ := List.exists_cons_of_ne_nil hne
  rw [hht]
  by_cases hh : h = (kmin, tmin)
  · simp [hh]
  · exfalso
    have hmem2 : (kmin, tmin) ∈ h :: t := by
      rw [← hht]
      exact hperm.mem_iff.mpr hmem
    have hmem3 : (kmin, tmin) ∈ t := by
      rcases List.mem_cons.mp hmem2 with he | ht'
      · exact absurd he.symm hh
      · exact ht'
    have hle : byAccessTime h (kmin, tmin) = true := by
      have hp := List.pairwise_cons.mp (hht ▸ hsorted)
      exact hp.1 _ hmem3
    have hhl : h ∈ l := hperm.mem_iff.mp (hht ▸ List.mem_cons_self h t)
    have hgt : tmin < h.2 := hstrict h hhl hh
    simp only [byAccessTime, decide_eq_true_eq] at hle
    omega

/-- C7: on a well-formed cache of N entries bounded to N, a `CacheManager.set`
with a fresh key triggers the LRU eviction, which removes exactly the entry
with the strictly oldest recorded access time: that entry is gone, the new
entry is present, every other entry is untouched, and the size returns to N.
Second part: a non-expired `get` refreshes the entry's access time. -/
theorem C7_lru_eviction :
    (∀ (α : Type) (c : MemoryCache α) (k : String) (v : α) (ttl now : Nat)
       (kmin : String) (tmin : Nat),
       (c.cache.map Prod.fst).Nodup →
       c.accessTimes.map Prod.fst = c.cache.map Prod.fst →
       k ∉ c.cache.map Prod.fst →
       (kmin, tmin) ∈ c.accessTimes →
       (∀ p ∈ c.accessTimes, p ≠ (kmin, tmin) → tmin < p.2) →
       tmin < now →
       mapGet kmin (cmSet c.cache.length k v ttl now c).cache = none ∧
       mapGet k (cmSet c.cache.length k v ttl now c).cache =
         some { data := v, timestamp := now, ttl := ttl } ∧
       (∀ k', k' ≠ kmin → k' ≠ k →
          mapGet k' (cmSet c.cache.length k v ttl now c).cache =
            mapGet k' c.cache) ∧
       mcSize (cmSet c.cache.length k v ttl now c) = c.cache.length) ∧
    (∀ (α : Type) (c : MemoryCache α) (k : String) (now : Nat) (e : CacheEntry α),
       mapGet k c.cache = some e → ¬ (e.ttl < now - e.timestamp) →
       mapGet k ((mcGet k now c).2.accessTimes) = some now) := by
  constructor
  · intro α c k v ttl now kmin tmin hnd hsync hfresh hmem hstrict hnow
    have hfreshAT : k ∉ c.accessTimes.map Prod.fst := by
      rw [hsync]
      exact hfresh
    have hc1cache : (mcSet k v ttl now c).cache =
        c.cache ++ [(k, { data := v, timestamp := now, ttl := ttl })] :=
      mapSet_of_not_mem k _ c.cache hfresh
    have hc1at : (mcSet k v ttl now c).accessTimes = c.accessTimes ++ [(k, now)] :=
      mapSet_of_not_mem k now c.accessTimes hfreshAT
    have hlen1 : (mcSet k v ttl now c).cache.length = c.cache.length + 1 := by
      rw [hc1cache]
      simp
    have hbranch : cmSet c.cache.length k v ttl now c =
        evictLRU c.cache.length (mcSet k v ttl now c) := by
      unfold cmSet
      rw [if_pos]
      show c.cache.length < mcSize (mcSet k v ttl now c)
      unfold mcSize
      omega
    have hminAT1 : (kmin, tmin) ∈ (mcSet k v ttl now c).accessTimes := by
      rw [hc1at]
      exact List.mem_append_left _ hmem
    have hstrict1 : ∀ p ∈ (mcSet k v ttl now c).accessTimes,
        p ≠ (kmin, tmin) → tmin < p.2 := by
      rw [hc1at]
      intro p hp hne
      rcases List.mem_append.mp hp with h | h
      · exact hstrict p h hne
      · rcases List.mem_singleton.mp h with rfl
        simpa using hnow
    have hhead := mergeSort_byAccessTime_head _ kmin tmin hminAT1 hstrict1
    have hkminMem : kmin ∈ c.cache.map Prod.fst := by
      rw [← hsync]
      exact List.mem_map_of_mem Prod.fst hmem
    have hkne : k ≠ kmin := fun he => hfresh (he ▸ hkminMem)
    have hevict : evictLRU c.cache.length (mcSet k v ttl now c) =
        mcDelete kmin (mcSet k v ttl now c) := by
      simp only [evictLRU]
      rw [if_neg (by omega)]
      rw [show (mcSet k v ttl now c).cache.length - c.cache.length = 1 by omega]
      rw [List.take_one, hhead]
      rfl
    rw [hbranch, hevict]
    refine ⟨?_, ?_, ?_, ?_⟩
    · exact mapGet_mapDelete_self kmin _
    · show mapGet k (mapDelete kmin (mcSet k v ttl now c).cache) = _
      rw [mapGet_mapDelete_ne kmin k _ hkne, hc1cache, mapGet_append,
        (mapGet_eq_none_iff k c.cache).mpr hfresh]
      simp [mapGet]
    · intro k' hk1 hk2
      show mapGet k' (mapDelete kmin (mcSet k v ttl now c).cache) = _
      rw [mapGet_mapDelete_ne kmin k' _ hk1, hc1cache, mapGet_append]
      cases hmk : mapGet k' c.cache with
      | some w => rfl
      | none =>
          have : ((k : String) == k') = false := beq_eq_false_iff_ne.mpr (Ne.symm hk2)
          simp [mapGet, this]
    · show (mapDelete kmin (mcSet k v ttl now c).cache).length = c.cache.length
      have hmemc1 : kmin ∈ (mcSet k v ttl now c).cache.map Prod.fst := by
        rw [hc1cache, List.map_append]
        exact List.mem_append_left _ hkminMem
      have hndc1 : ((mcSet k v ttl now c).cache.map Prod.fst).Nodup := by
        rw [hc1cache, List.map_append]
        exact List.Nodup.append hnd (by simp)
          (List.disjoint_singleton.mpr (by simpa using hfresh))
      rw [mapDelete_length_of_mem kmin _ hmemc1 hndc1, hlen1]
      omega
  · intro α c k now e hsome hexp
    simp only [mcGet, hsome]
    rw [if_neg hexp]
    exact mapGet_mapSet_self k now c.accessTimes

def c7cache : MemoryCache Nat :=
  { cache := [("a", { data := 1, timestamp := 0, ttl := 100 }),
              ("b", { data := 2, timestamp := 0, ttl := 100 })],
    accessTimes := [("a", 1), ("b", 2)] }

/-- C7 witness: a 2-entry cache bounded to 2 receiving a third, fresh key
evicts exactly the key with the oldest access time ("a"), keeps "b", and
stays at size 2; an earlier non-expired read refreshes the access time. -/
theorem C7_lru_eviction_witness :
    mapGet "a" (cmSet c7cache.cache.length "c" (3 : Nat) 50 10 c7cache).cache =
      none ∧
    mapGet "b" (cmSet c7cache.cache.length "c" (3 : Nat) 50 10 c7cache).cache =
      mapGet "b" c7cache.cache ∧
    mcSize (cmSet c7cache.cache.length "c" (3 : Nat) 50 10 c7cache) = 2 ∧
    mapGet "b" ((mcGet "b" 7 c7cache).2.accessTimes) = some 7 := by
  obtain ⟨h1, _, h3, h4⟩ :=
    C7_lru_eviction.1 Nat c7cache "c" 3 50 10 "a" 1 (by decide) (by decide)
      (by decide) (by decide) (by decide) (by decide)
  exact ⟨h1, h3 "b" (by decide) (by decide), h4,
    C7_lru_eviction.2 Nat c7cache "b" 7 { data := 2, timestamp := 0, ttl := 100 }
      (by decide) (by decide)⟩

/-! ## Claim C8 -/

def incompatibleRec : VersionInfo :=
  { version := "2.0.0", timestamp := 0, compatible := DATA_VERSION_COMPATIBLE }

/-- C8: `checkVersionCompatibility()` returns true exactly when the stored
Version Record's version is in the compatible-versions set — defaulting to
the (compatible) current version when no record is stored — and whenever it
returns false, `DataManager.init` selects the STATIC data source. -/
theorem C8_version_gate (kvAvailable : Bool) (stored : Option VersionInfo)
    (now : Nat) :
    (checkVersionCompatibility stored now = true ↔
       (match stored with
        | some vi => vi.version ∈ DATA_VERSION_COMPATIBLE
        | none => True)) ∧
    (stored = none → (getVersion stored now).version = DATA_VERSION_CURRENT) ∧
    (checkVersionCompatibility stored now = false →
       dmInitSource kvAvailable stored now = DataSource.static) := by
  refine ⟨?_, ?_, ?_⟩
  · cases stored with
    | none => simp [checkVersionCompatibility, getVersion, DATA_VERSION_COMPATIBLE,
        DATA_VERSION_CURRENT]
    | some vi => simp [checkVersionCompatibility, getVersion]
  · intro h
    rw [h]
    rfl
  · intro h
    unfold dmInitSource
    cases kvAvailable with
    | false => rfl
    | true =>
        simp only [if_true]
        rw [if_neg]
        simp [h]

/-- C8 witness: an incompatible stored version record fails the check and
forces the STATIC source even with the store available. -/
theorem C8_version_gate_witness :
    dmInitSource true (some incompatibleRec) 0 = DataSource.static :=
  (C8_version_gate true (some incompatibleRec) 0).2.2 (by decide)

/-! ## Claim C9 -/

def c9site : Site :=
  { id := "s1", title := "Alpha", url := "https://a.example",
    description := "editor", shortDesc := "zzz quick", category := "dev" }

/-- C9 counterexample: on a site whose `shortDesc` alone matches the query,
the Data Manager's `searchSites` returns the site but the `searchSites`
emitted by `generateStaticFileCode` returns nothing — the emitted helper
omits `shortDesc` from its match fields, so the two are not equivalent. -/
theorem C9_counterexample :
    dmSearchSites [c9site] "zzz" = [c9site] ∧
    genSearchSites [c9site] "zzz" = [] := by
  refine ⟨by decide, by decide⟩

/-- C9 (amended): the emitted `searchSites` matches case-insensitively over
title, description and category only — `shortDesc` is omitted — so its
result is always a sublist of the Data Manager's; the two coincide exactly
when no site is reachable through `shortDesc` alone. -/
theorem C9_search_refinement :
    (∀ (sites : List Site) (q : String),
       (genSearchSites sites q).Sublist (dmSearchSites sites q)) ∧
    (∀ (sites : List Site) (q : String),
       (∀ t ∈ sites, strIncludes (jsLower t.shortDesc) (jsLower q) = true →
          siteMatchesGen (jsLower q) t = true) →
       genSearchSites sites q = dmSearchSites sites q) := by
  constructor
  · intro sites q
    unfold genSearchSites dmSearchSites
    by_cases hq : (q == "") = true
    · rw [if_pos hq, if_pos hq]
    · rw [if_neg hq, if_neg hq]
      apply List.monotone_filter_right
      intro t ht
      unfold siteMatchesGen at ht
      unfold siteMatchesDM
      rcases Bool.or_eq_true_iff.mp ht with h | h
      · rcases Bool.or_eq_true_iff.mp h with h' | h'
        · simp [h']
        · simp [h']
      · simp [h]
  · intro sites q hside
    unfold genSearchSites dmSearchSites
    by_cases hq : (q == "") = true
    · rw [if_pos hq, if_pos hq]
    · rw [if_neg hq, if_neg hq]
      apply List.filter_congr
      intro t ht
      unfold siteMatchesGen siteMatchesDM
      by_cases hsd : strIncludes (jsLower t.shortDesc) (jsLower q) = true
      · have hgen := hside t ht hsd
        unfold siteMatchesGen at hgen
        rcases Bool.or_eq_true_iff.mp hgen with h | h
        · rcases Bool.or_eq_true_iff.mp h with h' | h'
          · simp [h', hsd]
          · simp [h', hsd]
        · simp [h, hsd]
      · have hsd' : strIncludes (jsLower t.shortDesc) (jsLower q) = false :=
          Bool.eq_false_iff.mpr hsd
        simp [hsd']

/-- C9 witness: when every shortDesc match is also a title match, the two
search helpers agree. -/
theorem C9_search_refinement_witness :
    genSearchSites
      [{ c9site with title := "zzz Alpha" }] "zzz" =
    dmSearchSites
      [{ c9site with title := "zzz Alpha" }] "zzz" :=
  C9_search_refinement.2 [{ c9site with title := "zzz Alpha" }] "zzz" (by decide)

/-! ## Claim C10 -/

def c10cache : MemoryCache Nat :=
  { cache := [(dmCacheKey "categories", { data := 1, timestamp := 0, ttl := 9 }),
              (kvCacheKey "bookmarks:sites", { data := 2, timestamp := 0, ttl := 9 })],
    accessTimes := [(dmCacheKey "categories", 0), (kvCacheKey "bookmarks:sites", 0)] }

/-- C10: `KVAdapter.clearCache()` with no key empties the entire shared
cache — every entry of every cache user, the Data Manager's `dm_`-prefixed
entries included, is gone — while the single-key form
`KVAdapter.clearCache(k)` deletes exactly the adapter's own `kv_`-prefixed
entry and leaves every other key untouched. -/
theorem C10_clearCache :
    (∀ (α : Type) (c : MemoryCache α) (anyKey : String),
       mapGet anyKey (kvClearCache none c).cache = none) ∧
    (∀ (α : Type) (c : MemoryCache α) (k : String),
       mapGet (kvCacheKey k) (kvClearCache (some k) c).cache = none) ∧
    (∀ (α : Type) (c : MemoryCache α) (k k' : String), k' ≠ kvCacheKey k →
       mapGet k' (kvClearCache (some k) c).cache = mapGet k' c.cache) := by
  refine ⟨?_, ?_, ?_⟩
  · intro α c anyKey
    rfl
  · intro α c k
    exact mapGet_mapDelete_self _ _
  · intro α c k k' h
    exact mapGet_mapDelete_ne _ _ _ h

/-- C10 witness: clearing with no key removes the Data Manager's own
`dm_categories` entry; the single-key form leaves it untouched. -/
theorem C10_clearCache_witness :
    mapGet (dmCacheKey "categories") (kvClearCache none c10cache).cache = none ∧
    mapGet (dmCacheKey "categories")
        (kvClearCache (some "bookmarks:sites") c10cache).cache =
      mapGet (dmCacheKey "categories") c10cache.cache :=
  ⟨C10_clearCache.1 Nat c10cache (dmCacheKey "categories"),
   C10_clearCache.2.2 Nat c10cache "bookmarks:sites" (dmCacheKey "categories")
     (by decide)⟩

end Hao123
